import Mathlib

/-!
Verification development for the phosim photonic circuit simulator.

The Python sources (phosim/data_types.py, phosim/components.py,
phosim/simulation.py) are shallowly embedded below.  Python floats are
idealised as rationals, Python object identity is modelled by a heap of
components indexed by natural-number ids, and Python exceptions are
modelled with an explicit error type threaded through `Except`.
-/

namespace Phosim

/-- The Python exceptions raised by the embedded code, distinguished by the
site in the source that raises them.  The four RuntimeError sites of the
source are kept apart so that theorems can talk about the specific failure
(the spec names them NamingConflict, ConnectionRangeError,
UnconnectedPortError and DependencyCycleError). -/
inductive PyError where
  | attributeError
  | typeError
  | keyError
  | indexError
  | valueError
  | namingConflict
  | connectionRange
  | unconnectedPort
  | dependencyCycle
deriving DecidableEq

/-! ## data_types.py -/

/-- OpticalPower (data_types.py 9-46): a Python dict from wavelength to power,
kept in insertion order.  The entries list of a value built through the dict
interface always has pairwise distinct keys. -/
structure OpticalPower where
  entries : List (ℚ × ℚ)
deriving DecidableEq

/-- Dict item assignment: overwrite the value of an existing key in place,
otherwise append the new key at the end (Python dict insertion order). -/
def setEntries : List (ℚ × ℚ) → ℚ → ℚ → List (ℚ × ℚ)
  | [], w, v => [(w, v)]
  | (k, x) :: rest, w, v =>
    if k = w then (k, v) :: rest else (k, x) :: setEntries rest w v

/-- Lookup in an entries list: the value of the first entry with the key,
and 0 when the key is absent. -/
def getEnt (l : List (ℚ × ℚ)) (w : ℚ) : ℚ :=
  match l.find? (fun p => decide (p.1 = w)) with
  | some p => p.2
  | none => 0

/-- OpticalPower.__getitem__ (data_types.py 16-19): 0 for an absent key. -/
def OpticalPower.get (a : OpticalPower) (w : ℚ) : ℚ :=
  getEnt a.entries w

/-- Dict item assignment on an OpticalPower. -/
def OpticalPower.set (a : OpticalPower) (w v : ℚ) : OpticalPower :=
  ⟨setEntries a.entries w v⟩

/-- OpticalPower.copy (data_types.py 45-46): a fresh dict with the same
entries; the result shares no mutable state with the source. -/
def OpticalPower.copy (a : OpticalPower) : OpticalPower :=
  ⟨a.entries⟩

/-- OpticalPower.__add__ (data_types.py 21-25): ret = self.copy(); for each
wavelength of rhs, ret[w] += rhs[w]. -/
def OpticalPower.add (a b : OpticalPower) : OpticalPower :=
  b.entries.foldl (fun ret p => ret.set p.1 (ret.get p.1 + p.2)) a.copy

/-- OpticalPower.__mul__ (data_types.py 33-37): ret = self.copy(); every value
of ret is multiplied by the scalar. -/
def OpticalPower.mul (a : OpticalPower) (s : ℚ) : OpticalPower :=
  ⟨a.copy.entries.map (fun p => (p.1, p.2 * s))⟩

/-- OpticalPower.__truediv__ (data_types.py 39-43). -/
def OpticalPower.div (a : OpticalPower) (s : ℚ) : OpticalPower :=
  ⟨a.copy.entries.map (fun p => (p.1, p.2 / s))⟩

/-- The keys of the dict. -/
def OpticalPower.keys (a : OpticalPower) : List ℚ :=
  a.entries.map (fun p => p.1)

/-- sum(a.values()) as used by the photodetector. -/
def OpticalPower.valuesSum (a : OpticalPower) : ℚ :=
  a.entries.foldl (fun acc p => acc + p.2) 0

/-- IntRange (data_types.py 49-54): inclusive count range with -1 as the
unbounded sentinel. -/
structure IntRange where
  min : Int
  max : Int
deriving DecidableEq

/-- IntRange.in_range (data_types.py 53-54), translated with the Python
operator precedence of the source line
`self.min == -1 or value >= self.min and self.max == -1 or value <= self.max`,
i.e. `and` binds tighter than `or`. -/
def IntRange.in_range (r : IntRange) (value : Int) : Bool :=
  decide (r.min = -1) || (decide (value ≥ r.min) && decide (r.max = -1)) ||
    decide (value ≤ r.max)

/-- Modelled from the spec (section 4.1): membership in the inclusive range
[min, max] where either bound equal to the sentinel -1 removes only that
side of the constraint.  Stated separately from `IntRange.in_range` so the
two can be compared. -/
def specInRange (r : IntRange) (value : Int) : Prop :=
  (r.min = -1 ∨ r.min ≤ value) ∧ (r.max = -1 ∨ value ≤ r.max)

instance (r : IntRange) (value : Int) : Decidable (specInRange r value) := by
  unfold specInRange
  infer_instance

/-- ConnectionEndpoint (data_types.py 57-59): a component identity (heap id in
this embedding) together with a port index. -/
structure ConnectionEndpoint where
  component : Nat
  port_id : Nat
deriving DecidableEq

/-! ## components.py: port model and construction-time validation -/

/-- PortType (components.py 25-28); Python iterates the enum in declaration
order OPTICAL, ANALOG, DIGITAL. -/
inductive PortType where
  | optical
  | analog
  | digital
deriving DecidableEq

/-- PortsCount (components.py 31-45). -/
structure PortsCount where
  optical : Nat
  analog : Nat
  digital : Nat
deriving DecidableEq

/-- PortsCount.__getitem__ (components.py 37-45). -/
def PortsCount.get (p : PortsCount) : PortType → Nat
  | .optical => p.optical
  | .analog => p.analog
  | .digital => p.digital

/-- A Python dict keyed by the three port types, as used for the connection
tables and the output tables of a component. -/
structure PortMap (α : Type) where
  optical : α
  analog : α
  digital : α
deriving DecidableEq

def PortMap.get {α : Type} (m : PortMap α) : PortType → α
  | .optical => m.optical
  | .analog => m.analog
  | .digital => m.digital

/-- Replace one entry of a PortMap. -/
def PortMap.set {α : Type} (m : PortMap α) : PortType → α → PortMap α
  | .optical, x => { m with optical := x }
  | .analog, x => { m with analog := x }
  | .digital, x => { m with digital := x }

/-- ComponentTypeAttributes (components.py 13-22). -/
structure ComponentTypeAttributes where
  description : String
  optical_losses_types : List String
  ports_in_ranges : PortMap IntRange
  ports_out_ranges : PortMap IntRange
deriving DecidableEq

/-- The port-count validation of Component.__init__ (components.py 69-74).
The source loop runs over PortType in order and raises ValueError at the
first input count rejected by in_range; the output counts are never
inspected by the constructor. -/
def componentInitPortCheck (attrs : ComponentTypeAttributes)
    (ports_in_count : PortsCount) : Except PyError Unit :=
  if (attrs.ports_in_ranges.get .optical).in_range
      (ports_in_count.get .optical : Int) = false then .error .valueError
  else if (attrs.ports_in_ranges.get .analog).in_range
      (ports_in_count.get .analog : Int) = false then .error .valueError
  else if (attrs.ports_in_ranges.get .digital).in_range
      (ports_in_count.get .digital : Int) = false then .error .valueError
  else .ok ()

/-- Eom._component_type_attributes (components.py 218-226). -/
def eomAttributes : ComponentTypeAttributes :=
  { description := "EOM"
    optical_losses_types := ["insertion"]
    ports_in_ranges :=
      { optical := ⟨1, 1⟩, analog := ⟨1, 1⟩, digital := ⟨0, 0⟩ }
    ports_out_ranges :=
      { optical := ⟨1, 1⟩, analog := ⟨0, 0⟩, digital := ⟨0, 0⟩ } }

/-- Splitter._component_type_attributes (components.py 248-256). -/
def splitterAttributes : ComponentTypeAttributes :=
  { description := "Splitter"
    optical_losses_types := ["insertion"]
    ports_in_ranges :=
      { optical := ⟨1, 1⟩, analog := ⟨0, 0⟩, digital := ⟨0, 0⟩ }
    ports_out_ranges :=
      { optical := ⟨1, -1⟩, analog := ⟨0, 0⟩, digital := ⟨0, 0⟩ } }

/-- Demux._component_type_attributes (components.py 272-280). -/
def demuxAttributes : ComponentTypeAttributes :=
  { description := "Demux"
    optical_losses_types := ["insertion"]
    ports_in_ranges :=
      { optical := ⟨1, 1⟩, analog := ⟨0, 0⟩, digital := ⟨0, 0⟩ }
    ports_out_ranges :=
      { optical := ⟨1, -1⟩, analog := ⟨0, 0⟩, digital := ⟨0, 0⟩ } }

/-- Mux._component_type_attributes (components.py 302-310). -/
def muxAttributes : ComponentTypeAttributes :=
  { description := "Mux"
    optical_losses_types := ["insertion"]
    ports_in_ranges :=
      { optical := ⟨1, -1⟩, analog := ⟨0, 0⟩, digital := ⟨0, 0⟩ }
    ports_out_ranges :=
      { optical := ⟨1, 1⟩, analog := ⟨0, 0⟩, digital := ⟨0, 0⟩ } }

/-- Photodetector._component_type_attributes (components.py 328-336). -/
def photodetectorAttributes : ComponentTypeAttributes :=
  { description := "Photodetector"
    optical_losses_types := []
    ports_in_ranges :=
      { optical := ⟨1, 1⟩, analog := ⟨1, 1⟩, digital := ⟨0, 0⟩ }
    ports_out_ranges :=
      { optical := ⟨1, 1⟩, analog := ⟨0, 0⟩, digital := ⟨0, 0⟩ } }

/-- Laser._component_type_attributes (components.py 356-364). -/
def laserAttributes : ComponentTypeAttributes :=
  { description := "Laser"
    optical_losses_types := []
    ports_in_ranges :=
      { optical := ⟨0, 0⟩, analog := ⟨0, 0⟩, digital := ⟨0, 0⟩ }
    ports_out_ranges :=
      { optical := ⟨1, 1⟩, analog := ⟨0, 0⟩, digital := ⟨0, 0⟩ } }

/-- VoltageSource._component_type_attributes (components.py 399-407). -/
def voltageSourceAttributes : ComponentTypeAttributes :=
  { description := "Voltage Source"
    optical_losses_types := []
    ports_in_ranges :=
      { optical := ⟨0, 0⟩, analog := ⟨0, 0⟩, digital := ⟨0, 0⟩ }
    ports_out_ranges :=
      { optical := ⟨0, 0⟩, analog := ⟨1, 1⟩, digital := ⟨0, 0⟩ } }

/-- Waveguide._component_type_attributes (components.py 432-440). -/
def waveguideAttributes : ComponentTypeAttributes :=
  { description := "Waveguide"
    optical_losses_types := ["propagation"]
    ports_in_ranges :=
      { optical := ⟨1, 1⟩, analog := ⟨0, 0⟩, digital := ⟨0, 0⟩ }
    ports_out_ranges :=
      { optical := ⟨1, 1⟩, analog := ⟨0, 0⟩, digital := ⟨0, 0⟩ } }

/-- Photodetector.__init__ (components.py 338-339) passes these actual input
counts to Component.__init__. -/
def photodetectorPortsIn : PortsCount := ⟨1, 0, 0⟩

/-- Photodetector.__init__ (components.py 338-339) passes these actual output
counts to Component.__init__. -/
def photodetectorPortsOut : PortsCount := ⟨0, 1, 0⟩

instance {ε α : Type} [DecidableEq ε] [DecidableEq α] :
    DecidableEq (Except ε α) := fun x y =>
  match x, y with
  | .ok a, .ok b => decidable_of_iff (a = b) (by simp)
  | .error e, .error f => decidable_of_iff (e = f) (by simp)
  | .ok _, .error _ => isFalse (by simp)
  | .error _, .ok _ => isFalse (by simp)

/-! ## components.py: components, the object heap, and transfer functions -/

/-- A value stored in an output slot at run time.  Python typing is dynamic:
optical slots are supposed to hold OpticalPower dicts (Component docstring,
components.py 51-54), analog and digital slots hold numbers, but the code can
and does store plain numbers into optical slots. -/
inductive PyVal where
  | dict (d : OpticalPower)
  | num (q : ℚ)
deriving DecidableEq

/-- Multiplication value * scalar: OpticalPower.__mul__ for a dict, float
multiplication for a number.  Total, as in Python. -/
def PyVal.mulQ : PyVal → ℚ → PyVal
  | .dict d, s => .dict (d.mul s)
  | .num q, s => .num (q * s)

/-- Division value / n as used by Splitter.update (n is a port count). -/
def PyVal.divN : PyVal → Nat → PyVal
  | .dict d, n => .dict (d.div (n : ℚ))
  | .num q, n => .num (q / (n : ℚ))

/-- Addition lhs + rhs.  OpticalPower.__add__ iterates rhs.keys(), so a
number on the right raises AttributeError (data_types.py 23); a number on
the left with a dict on the right raises TypeError (float.__add__ rejects a
dict and dict defines no __radd__). -/
def PyVal.addVal : PyVal → PyVal → Except PyError PyVal
  | .dict a, .dict b => .ok (.dict (a.add b))
  | .dict _, .num _ => .error .attributeError
  | .num a, .num b => .ok (.num (a + b))
  | .num _, .dict _ => .error .typeError

/-- Subscript value[w]: dict lookup with 0 default for an OpticalPower;
a number is not subscriptable (TypeError). -/
def PyVal.getItem : PyVal → ℚ → Except PyError ℚ
  | .dict d, w => .ok (d.get w)
  | .num _, _ => .error .typeError

/-- sum(value.values()): a number has no attribute values (AttributeError). -/
def PyVal.valuesSum : PyVal → Except PyError ℚ
  | .dict d => .ok d.valuesSum
  | .num _ => .error .attributeError

/-- The per-variant construction parameters of a component, mirroring the
concrete subclasses of components.py.  The EOM is not modelled because its
transfer function is transcendental and no claim depends on it. -/
inductive ComponentKind where
  | laser (wavelength power : ℚ)
  | voltageSource (voltage : ℚ)
  | waveguide (length_um : ℚ)
  | splitter
  | demux (wavelengths : List ℚ)
  | mux
  | photodetector (gain : ℚ)
deriving DecidableEq

/-- Component.description (components.py 188-190) via the per-variant
attributes. -/
def ComponentKind.description : ComponentKind → String
  | .laser _ _ => "Laser"
  | .voltageSource _ => "Voltage Source"
  | .waveguide _ => "Waveguide"
  | .splitter => "Splitter"
  | .demux _ => "Demux"
  | .mux => "Mux"
  | .photodetector _ => "Photodetector"

/-- The mutable state of a Component object (components.py 82-101): the
per-port-type input and output connection tables, the output value buffers,
and the cached linear loss factors (None when the constructor received no
loss configuration). -/
structure Component where
  kind : ComponentKind
  connections_in : PortMap (List (Option ConnectionEndpoint))
  connections_out : PortMap (List (Option ConnectionEndpoint))
  output : PortMap (List PyVal)
  losses_factor : Option (List (String × ℚ))
deriving DecidableEq

/-- The object store: Python object identity is a natural-number id. -/
abbrev Heap := List (Nat × Component)

def heapGet : Heap → Nat → Option Component
  | [], _ => none
  | (i, c) :: rest, cid => if i = cid then some c else heapGet rest cid

def heapSet : Heap → Nat → Component → Heap
  | [], _, _ => []
  | (i, c) :: rest, cid, cNew =>
    if i = cid then (i, cNew) :: heapSet rest cid cNew
    else (i, c) :: heapSet rest cid cNew

/-- Python list indexing, raising IndexError when out of bounds. -/
def pyIdx {α : Type} (xs : List α) (i : Nat) : Except PyError α :=
  match xs.get? i with
  | some v => .ok v
  | none => .error .indexError

/-- Python list item assignment, raising IndexError when out of bounds. -/
def pySet {α : Type} (xs : List α) (i : Nat) (v : α) : Except PyError (List α) :=
  if i < xs.length then .ok (xs.set i v) else .error .indexError

/-- self.losses_factor[name]: TypeError when the table is None (the
constructor stored no losses), KeyError when the name is absent. -/
def getLoss (c : Component) (name : String) : Except PyError ℚ :=
  match c.losses_factor with
  | none => .error .typeError
  | some table =>
    match table.find? (fun p => p.1 = name) with
    | some p => .ok p.2
    | none => .error .keyError

/-- Component.get_output (components.py 170-182).  The copy flag only
affects aliasing, which the pure embedding does not observe. -/
def Component.get_output (c : Component) (pt : PortType) (pid : Nat) :
    Except PyError PyVal :=
  pyIdx (c.output.get pt) pid

/-- Component.get_input (components.py 152-168): resolve the connection
endpoint stored at the input slot and read the output of the upstream
component; an unset slot raises the unconnected-port RuntimeError. -/
def Component.get_input (c : Component) (heap : Heap) (pt : PortType)
    (pid : Nat) : Except PyError PyVal :=
  match (c.connections_in.get pt).get? pid with
  | none => .error .indexError
  | some none => .error .unconnectedPort
  | some (some conn) =>
    match heapGet heap conn.component with
    | none => .error .keyError
    | some src => src.get_output pt conn.port_id

/-- The loop body of Demux.update (components.py 286-290): for every
(port, wavelength) pair, the optical output slot receives the NUMBER
input[w] * insertion factor (a scalar, not a one-line spectrum). -/
def demuxLoop (v : PyVal) : Component → List ℚ → Nat → Except PyError Component
  | c, [], _ => .ok c
  | c, w :: ws, port => do
    let q ← v.getItem w
    let f ← getLoss c "insertion"
    let out ← pySet (c.output.get .optical) port (.num (q * f))
    demuxLoop v { c with output := c.output.set .optical out } ws (port + 1)

/-- The loop body of Mux.update (components.py 316-320).  Reading the input
uses the live heap with the own partially updated state of the component
(cid), matching Python aliasing.  Each step reads output[0], adds
input * insertion factor via OpticalPower.__add__, and stores the result. -/
def muxLoop (heap : Heap) (cid : Nat) :
    Component → List Nat → Except PyError Component
  | c, [] => .ok c
  | c, idx :: rest => do
    let v ← c.get_input (heapSet heap cid c) .optical idx
    let cur ← pyIdx (c.output.get .optical) 0
    let f ← getLoss c "insertion"
    let s ← cur.addVal (v.mulQ f)
    let out ← pySet (c.output.get .optical) 0 s
    muxLoop heap cid { c with output := c.output.set .optical out } rest


/-- The update method of each modelled variant (components.py).
Laser.update and VoltageSource.update are no-ops (their outputs are set by
the property setters); Waveguide.update multiplies the input by the
propagation factor; Splitter.update divides the input by the number of
optical output slots and scales by the insertion factor; Demux.update writes
one scalar per configured wavelength; Mux.update iterates
range(len(self.connections_in)) which is the size of the per-port-type dict,
i.e. always 3; Photodetector.update sums the input spectrum times the gain. -/
def componentUpdate (heap : Heap) (cid : Nat) (c : Component) :
    Except PyError Component :=
  match c.kind with
  | .laser _ _ => .ok c
  | .voltageSource _ => .ok c
  | .waveguide _ => do
    let v ← c.get_input heap .optical 0
    let f ← getLoss c "propagation"
    let out ← pySet (c.output.get .optical) 0 (v.mulQ f)
    .ok { c with output := c.output.set .optical out }
  | .splitter =>
    let n := (c.connections_out.get .optical).length
    if n = 0 then .ok { c with output := c.output.set .optical [] }
    else do
      let v ← c.get_input heap .optical 0
      let f ← getLoss c "insertion"
      .ok { c with output :=
              c.output.set .optical (List.replicate n ((v.divN n).mulQ f)) }
  | .demux ws => do
    let v ← c.get_input heap .optical 0
    demuxLoop v c ws 0
  | .mux => do
    let out ← pySet (c.output.get .optical) 0 (.dict ⟨[]⟩)
    muxLoop heap cid { c with output := c.output.set .optical out }
      (List.range 3)
  | .photodetector gain => do
    let v ← c.get_input heap .optical 0
    let s ← v.valuesSum
    let out ← pySet (c.output.get .analog) 0 (.num (s * gain))
    .ok { c with output := c.output.set .analog out }

/-- The direct branch of Component.connect_to (components.py 119-138): bounds
check on the source output slot, write the endpoint there, bounds check on
the target input slot, write the back endpoint there.  The two overwrite
checks of the source construct Warning objects that are never raised, so
they have no effect. -/
def connectDirect (heap : Heap) (source target : Nat) (pt : PortType)
    (source_port_id target_port_id : Nat) : Except PyError Heap :=
  match heapGet heap source with
  | none => .error .keyError
  | some src =>
    if (src.connections_out.get pt).length ≤ source_port_id then
      .error .connectionRange
    else
      let srcOut := (src.connections_out.get pt).set source_port_id
        (some ⟨target, target_port_id⟩)
      let heap1 := heapSet heap source
        { src with connections_out := src.connections_out.set pt srcOut }
      match heapGet heap1 target with
      | none => .error .keyError
      | some tgt =>
        if (tgt.connections_in.get pt).length ≤ target_port_id then
          .error .connectionRange
        else
          let tgtIn := (tgt.connections_in.get pt).set target_port_id
            (some ⟨source, source_port_id⟩)
          .ok (heapSet heap1 target
            { tgt with connections_in := tgt.connections_in.set pt tgtIn })

/-- Component.connect_to (components.py 103-138).  With a waveguide on an
optical connection the source first connects to the waveguide with all
defaults (port 0 to port 0) and the waveguide then connects to the target
port; otherwise the connection is direct. -/
def connect_to (heap : Heap) (source target : Nat) (pt : PortType)
    (source_port_id target_port_id : Nat) (waveguide : Option Nat) :
    Except PyError Heap :=
  match waveguide, pt with
  | some w, .optical => do
    let heap1 ← connectDirect heap source w .optical 0 0
    connectDirect heap1 w target .optical 0 target_port_id
  | some _, .analog => connectDirect heap source target pt source_port_id target_port_id
  | some _, .digital => connectDirect heap source target pt source_port_id target_port_id
  | none, _ => connectDirect heap source target pt source_port_id target_port_id

/-! ## simulation.py -/

/-- Observer (simulation.py 114-145): the recorded samples and the tapped
(component, port type, port index). -/
structure Observer where
  data : List PyVal
  port_type : PortType
  target : Nat
  port_id : Nat
deriving DecidableEq

/-- PhotonicSimulation state (simulation.py 8-12): the object heap, the
insertion-ordered name-to-component registry, the observers, and the cached
resolution flag. -/
structure PhotonicSimulation where
  heap : Heap
  components : List (String × Nat)
  observers : List (String × Observer)
  dependencies_resolved : Bool
deriving DecidableEq

/-- The while loop of PhotonicSimulation._first_available_name
(simulation.py 97-105), bounded by fuel; among names "desc 0" ..
"desc len" at least one is unused, so the fuel used by
firstAvailableName is never exhausted. -/
def firstAvailableNameAux (desc : String) (names : List String) :
    Nat → Nat → String
  | 0, n => desc ++ " " ++ toString n
  | fuel + 1, n =>
    let cand := desc ++ " " ++ toString n
    if names.contains cand then firstAvailableNameAux desc names fuel (n + 1)
    else cand

def firstAvailableName (desc : String) (names : List String) : String :=
  firstAvailableNameAux desc names (names.length + 1) 0

/-- PhotonicSimulation.add_component (simulation.py 14-23): auto-name from
the component description when no name is given, reject duplicates, append
to the registry and invalidate the cached order.  The component object is
passed by reference, i.e. it already lives on the heap at id cid. -/
def PhotonicSimulation.add_component (s : PhotonicSimulation) (cid : Nat)
    (name : Option String) : Except PyError (String × PhotonicSimulation) :=
  match heapGet s.heap cid with
  | none => .error .keyError
  | some c =>
    let n := match name with
      | some n => n
      | none => firstAvailableName c.kind.description (s.components.map (fun p => p.1))
    if (s.components.map (fun p => p.1)).contains n then .error .namingConflict
    else .ok (n, { s with components := s.components ++ [(n, cid)],
                          dependencies_resolved := false })

/-- PhotonicSimulation.connect (simulation.py 25-36): delegate to
Component.connect_to and, only when a waveguide was spliced in, register the
waveguide (which is what invalidates the cached order in that case); the
method itself never touches _dependencies_resolved. -/
def PhotonicSimulation.connect (s : PhotonicSimulation) (source target : Nat)
    (pt : PortType) (source_port_id target_port_id : Nat)
    (waveguide : Option Nat) : Except PyError PhotonicSimulation :=
  match connect_to s.heap source target pt source_port_id target_port_id waveguide with
  | .error e => .error e
  | .ok heap1 =>
    match waveguide with
    | none => .ok { s with heap := heap1 }
    | some w =>
      match PhotonicSimulation.add_component { s with heap := heap1 } w none with
      | .error e => .error e
      | .ok (_, s1) => .ok s1

/-- The three per-port-type input connection lists of a component,
concatenated in the iteration order OPTICAL, ANALOG, DIGITAL of the
resolver loop (simulation.py 80-81). -/
def inputConnections (c : Component) : List (Option ConnectionEndpoint) :=
  c.connections_in.optical ++ c.connections_in.analog ++ c.connections_in.digital

/-- The inner scan of _resolve_dependencies (simulation.py 80-83): walk every
input connection slot; an unset slot (None) raises AttributeError at
connection.component; otherwise accumulate whether some endpoint references
a still-unresolved component (Python object identity = heap id). -/
def depScan (unresolved : List (String × Nat)) :
    List (Option ConnectionEndpoint) → Bool → Except PyError Bool
  | [], acc => .ok acc
  | none :: _, _ => .error .attributeError
  | some ep :: rest, acc =>
    depScan unresolved rest
      (acc || unresolved.any (fun q => decide (q.2 = ep.component)))

def hasDependencies (c : Component) (unresolved : List (String × Nat)) :
    Except PyError Bool :=
  depScan unresolved (inputConnections c) false

/-- The while loop of PhotonicSimulation._resolve_dependencies
(simulation.py 59-91) over the insertion-ordered registry.  The component at
current_index is accepted when it has no dependency among the unresolved
suffix, otherwise its registry entry is moved to the end; when a full pass
over the unresolved suffix makes no progress the cycle RuntimeError is
raised.  The source tests iterated = len(unresolved); on every reachable
state iterated never exceeds len(unresolved), so the inequality test used
here is the same check. -/
def resolveAux (heap : Heap) (reg : List (String × Nat)) (i iterated : Nat) :
    Except PyError (List (String × Nat)) :=
  if h : i = reg.length then .ok reg
  else if hiter : reg.length - i ≤ iterated then .error .dependencyCycle
  else
    match reg.get? i with
    | none => .error .indexError
    | some p =>
      match heapGet heap p.2 with
      | none => .error .keyError
      | some c =>
        match hasDependencies c (reg.drop i) with
        | .error e => .error e
        | .ok true => resolveAux heap (reg.eraseIdx i ++ [p]) i (iterated + 1)
        | .ok false => resolveAux heap reg (i + 1) 0
termination_by (reg.length - i, reg.length - i - iterated)
decreasing_by
  · have hlen : (reg.eraseIdx i ++ [p]).length = reg.length := by
      have hi : i < reg.length := by omega
      simp [List.length_eraseIdx, hi]
      omega
    rw [hlen]
    exact Prod.Lex.right _ (by omega)
  · exact Prod.Lex.left _ _ (by omega)

def resolveRegistry (heap : Heap) (reg : List (String × Nat)) :
    Except PyError (List (String × Nat)) :=
  resolveAux heap reg 0 0

/-- PhotonicSimulation._resolve_dependencies: reorder the registry and set
the cached flag. -/
def PhotonicSimulation.resolve_dependencies (s : PhotonicSimulation) :
    Except PyError PhotonicSimulation :=
  match resolveRegistry s.heap s.components with
  | .error e => .error e
  | .ok reg => .ok { s with components := reg, dependencies_resolved := true }

/-- The component evaluation loop of PhotonicSimulation.update
(simulation.py 53-54): run every update in registry order, threading the
heap so each component reads the already updated upstream outputs. -/
def updateComponentsAux (heap : Heap) :
    List (String × Nat) → Except PyError Heap
  | [] => .ok heap
  | (_, cid) :: rest =>
    match heapGet heap cid with
    | none => .error .keyError
    | some c =>
      match componentUpdate heap cid c with
      | .error e => .error e
      | .ok cNew => updateComponentsAux (heapSet heap cid cNew) rest

/-- The observer loop of PhotonicSimulation.update (simulation.py 56-57):
Observer.record appends the tapped output value to the data list. -/
def recordAll (heap : Heap) :
    List (String × Observer) → Except PyError (List (String × Observer))
  | [] => .ok []
  | (n, ob) :: rest =>
    match heapGet heap ob.target with
    | none => .error .keyError
    | some c =>
      match c.get_output ob.port_type ob.port_id with
      | .error e => .error e
      | .ok v =>
        match recordAll heap rest with
        | .error e => .error e
        | .ok rest1 => .ok ((n, { ob with data := ob.data ++ [v] }) :: rest1)

/-- PhotonicSimulation.update (simulation.py 49-57): resolve the order if it
is stale, evaluate every component in registry order, then let every
observer record. -/
def PhotonicSimulation.update (s : PhotonicSimulation) :
    Except PyError PhotonicSimulation :=
  match (if s.dependencies_resolved then .ok s else s.resolve_dependencies :
      Except PyError PhotonicSimulation) with
  | .error e => .error e
  | .ok s1 =>
    match updateComponentsAux s1.heap s1.components with
    | .error e => .error e
    | .ok heap1 =>
      match recordAll heap1 s1.observers with
      | .error e => .error e
      | .ok obs1 => .ok { s1 with heap := heap1, observers := obs1 }

/-- T successive calls to update(), stopping at the first failure. -/
def updateIter : Nat → PhotonicSimulation → Except PyError PhotonicSimulation
  | 0, s => .ok s
  | n + 1, s =>
    match s.update with
    | .error e => .error e
    | .ok s1 => updateIter n s1

/-- PhotonicSimulation.observer_data (simulation.py 93-95).  The source
comprehension iterates `self._observers`, which is a dict, so it yields the
dict KEYS (strings); `observer.data` is then an attribute access on a str
and raises AttributeError as soon as at least one observer exists. -/
def PhotonicSimulation.observer_data (s : PhotonicSimulation) :
    Except PyError (List (List PyVal)) :=
  match s.observers with
  | [] => .ok []
  | _ => .error .attributeError

/-! ## Lemmas about the OpticalPower dict operations -/

theorem getEnt_cons (k x w : ℚ) (l : List (ℚ × ℚ)) :
    getEnt ((k, x) :: l) w = if k = w then x else getEnt l w := by
  by_cases h : k = w
  · unfold getEnt
    rw [List.find?_cons_of_pos _ (by simp [h])]
    simp [h]
  · unfold getEnt
    rw [List.find?_cons_of_neg _ (by simp [h])]
    simp [h]

theorem getEnt_of_not_mem (l : List (ℚ × ℚ)) (w : ℚ)
    (h : w ∉ l.map (fun p => p.1)) : getEnt l w = 0 := by
  induction l with
  | nil => rfl
  | cons p rest ih =>
    obtain ⟨k, x⟩ := p
    simp only [List.map_cons, List.mem_cons, not_or] at h
    rw [getEnt_cons, if_neg (fun hk : k = w => h.1 hk.symm)]
    exact ih h.2

theorem getEnt_setEntries (l : List (ℚ × ℚ)) (w v w' : ℚ) :
    getEnt (setEntries l w v) w' = if w = w' then v else getEnt l w' := by
  induction l with
  | nil => rw [setEntries, getEnt_cons]
  | cons p rest ih =>
    obtain ⟨k, x⟩ := p
    by_cases hk : k = w
    · rw [setEntries, if_pos hk, getEnt_cons, getEnt_cons]
      subst hk
      by_cases hkw : k = w' <;> simp [hkw]
    · rw [setEntries, if_neg hk, getEnt_cons, ih, getEnt_cons]
      by_cases hkw : k = w'
      · subst hkw
        have hww : ¬ w = k := fun hww => hk hww.symm
        simp [hww]
      · simp [hkw]

theorem OpticalPower.copy_eq (a : OpticalPower) : a.copy = a := by
  cases a
  rfl

theorem OpticalPower.get_set (a : OpticalPower) (w v w' : ℚ) :
    (a.set w v).get w' = if w = w' then v else a.get w' :=
  getEnt_setEntries a.entries w v w'

theorem add_foldl_get (l : List (ℚ × ℚ)) (acc : OpticalPower) (w : ℚ)
    (hl : (l.map (fun p => p.1)).Nodup) :
    (l.foldl (fun ret p => ret.set p.1 (ret.get p.1 + p.2)) acc).get w
      = acc.get w + getEnt l w := by
  induction l generalizing acc with
  | nil => simp [getEnt]
  | cons p rest ih =>
    obtain ⟨k, x⟩ := p
    simp only [List.map_cons, List.nodup_cons] at hl
    rw [List.foldl_cons, ih _ hl.2, OpticalPower.get_set, getEnt_cons]
    by_cases hk : k = w
    · subst hk
      rw [getEnt_of_not_mem rest k hl.1]
      simp
    · simp [hk]

theorem getEnt_map_mul (l : List (ℚ × ℚ)) (k w : ℚ) :
    getEnt (l.map (fun p => (p.1, p.2 * k))) w = getEnt l w * k := by
  induction l with
  | nil => simp [getEnt]
  | cons p rest ih =>
    obtain ⟨k1, x⟩ := p
    by_cases h : k1 = w
    · simp [getEnt_cons, h]
    · simp [getEnt_cons, h, ih]

theorem OpticalPower.get_add (a b : OpticalPower) (w : ℚ)
    (hb : b.keys.Nodup) :
    (a.add b).get w = a.get w + b.get w := by
  unfold OpticalPower.add
  rw [OpticalPower.copy_eq, add_foldl_get b.entries a w hb]
  rfl

theorem OpticalPower.get_mul (a : OpticalPower) (k w : ℚ) :
    (a.mul k).get w = a.get w * k := by
  unfold OpticalPower.mul OpticalPower.get
  rw [OpticalPower.copy_eq]
  exact getEnt_map_mul a.entries k w

/-! ## Claim theorems: the value model -/

/-- C4: the claim states that in_range(value) is true iff value is at least
min and at most max, each -1 sentinel relaxing only its own side.  The source
line combines the tests with the Python precedence `A or (B and C) or D`,
which drops the lower-bound check whenever max is finite and makes a -1 min
accept everything: in_range (2,5) 0 is true although 0 < 2, and
in_range (-1,5) 7 is true although 7 > 5.  Both evaluations contradict the
claimed iff, whose right-hand sides are stated by specInRange. -/
theorem in_range_contradicts_spec :
    (IntRange.in_range ⟨2, 5⟩ 0 = true ∧ ¬ specInRange ⟨2, 5⟩ 0) ∧
    (IntRange.in_range ⟨-1, 5⟩ 7 = true ∧ ¬ specInRange ⟨-1, 5⟩ 7) := by
  decide

/-- C3: Photodetector.__init__ (components.py 338-339) passes input counts
(1,0,0) and output counts (0,1,0) although the declared ranges require
exactly one ANALOG input and exactly one OPTICAL output.  Construction
nevertheless succeeds: the constructor never inspects the output counts,
and the broken in_range accepts the analog input count 0 against the
declared range (1,1).  This contradicts the claim that any out-of-range
per-port-type count (input or output) raises ConstructionRangeError. -/
theorem photodetector_construction_escapes_range_check :
    componentInitPortCheck photodetectorAttributes photodetectorPortsIn
        = .ok () ∧
    ¬ specInRange (photodetectorAttributes.ports_in_ranges.get .analog)
        (photodetectorPortsIn.get .analog : Int) ∧
    ¬ specInRange (photodetectorAttributes.ports_out_ranges.get .optical)
        (photodetectorPortsOut.get .optical : Int) := by
  decide

/-- C8: the SpectralPower algebra.  Addition is wavelength-wise with absent
wavelengths read as 0 on either side, scalar multiplication is value-wise,
lookup of an absent wavelength yields 0, and copy rebuilds an equal dict
(the embedding is pure, so mutating the copy cannot reach the original;
copy constructs a fresh dict rather than returning the receiver).  The
Nodup hypothesis records that Python dict keys are distinct. -/
theorem spectral_power_algebra (a b : OpticalPower) (k w : ℚ)
    (hb : b.keys.Nodup) :
    (a.add b).get w = a.get w + b.get w ∧
    (a.mul k).get w = a.get w * k ∧
    (w ∉ a.keys → a.get w = 0) ∧
    a.copy = a :=
  ⟨OpticalPower.get_add a b w hb, OpticalPower.get_mul a k w,
   fun hw => getEnt_of_not_mem a.entries w hw, OpticalPower.copy_eq a⟩

theorem spectral_power_algebra_witness :
    (OpticalPower.keys ⟨[(3, 5), (7, 1)]⟩).Nodup ∧
    (OpticalPower.add ⟨[(1, 2), (3, 4)]⟩ ⟨[(3, 5), (7, 1)]⟩).get 3 =
      OpticalPower.get ⟨[(1, 2), (3, 4)]⟩ 3 +
        OpticalPower.get ⟨[(3, 5), (7, 1)]⟩ 3 ∧
    (OpticalPower.mul ⟨[(1, 2), (3, 4)]⟩ 2).get 7 =
      OpticalPower.get ⟨[(1, 2), (3, 4)]⟩ 7 * 2 :=
  ⟨by decide,
   (spectral_power_algebra ⟨[(1, 2), (3, 4)]⟩ ⟨[(3, 5), (7, 1)]⟩ 2 3
     (by decide)).1,
   (spectral_power_algebra ⟨[(1, 2), (3, 4)]⟩ ⟨[(3, 5), (7, 1)]⟩ 2 7
     (by decide)).2.1⟩

/-! ## Claim theorems: the simulation interface -/

/-- C2: observer_data fails with AttributeError on every simulation state
with at least one observer, because the source comprehension iterates the
observers dict itself (yielding name strings) instead of its values, and a
str has no attribute data.  The claim says it returns every observer data
sequence and does not fail. -/
theorem observer_data_raises (s : PhotonicSimulation)
    (h : s.observers ≠ []) :
    s.observer_data = .error .attributeError := by
  unfold PhotonicSimulation.observer_data
  cases hs : s.observers with
  | nil => exact absurd hs h
  | cons o rest => rfl

/-- A laser component as Component.__init__ plus Laser.__init__ leave it:
no inputs, one optical output holding the one-line spectrum. -/
def exLaser : Component :=
  { kind := .laser 1550 1
    connections_in := ⟨[], [], []⟩
    connections_out := ⟨[none], [], []⟩
    output := ⟨[.dict ⟨[(1550, 1)]⟩], [], []⟩
    losses_factor := none }

/-- A photodetector component as constructed: one optical input slot
(unset), one analog output slot holding 0.0. -/
def exPhotodetector : Component :=
  { kind := .photodetector 1
    connections_in := ⟨[none], [], []⟩
    connections_out := ⟨[], [none], []⟩
    output := ⟨[], [.num 0], []⟩
    losses_factor := none }

def exObserver : Observer :=
  { data := [], port_type := .analog, target := 1, port_id := 0 }

def exSimObs : PhotonicSimulation :=
  { heap := [(0, exLaser), (1, exPhotodetector)]
    components := [("Laser 0", 0), ("Photodetector 0", 1)]
    observers := [("Observer 0", exObserver)]
    dependencies_resolved := true }

theorem observer_data_raises_witness :
    exSimObs.observers ≠ [] ∧
    exSimObs.observer_data = .error .attributeError :=
  ⟨by decide, observer_data_raises exSimObs (by decide)⟩

/-- The state of exSimObs after connecting the laser output to the
photodetector input directly (no waveguide). -/
def exSimObsConnected : PhotonicSimulation :=
  { heap :=
      [(0, { exLaser with connections_out := ⟨[some ⟨1, 0⟩], [], []⟩ }),
       (1, { exPhotodetector with connections_in := ⟨[some ⟨0, 0⟩], [], []⟩ })]
    components := [("Laser 0", 0), ("Photodetector 0", 1)]
    observers := [("Observer 0", exObserver)]
    dependencies_resolved := true }

/-- C5: connect without a waveguide never touches the cached
_dependencies_resolved flag (simulation.py 25-36 contains no invalidation),
so a simulation whose order is marked resolved stays marked resolved across
the topology change, contradicting the claim that every connect invalidates
the cached order.  Only add_component (and therefore the waveguide splice
path, which registers the waveguide) resets the flag. -/
theorem connect_keeps_resolved_flag :
    PhotonicSimulation.connect exSimObs 0 1 .optical 0 0 none
        = .ok exSimObsConnected ∧
    exSimObs.dependencies_resolved = true ∧
    exSimObsConnected.dependencies_resolved = true := by
  decide

/-- A mux constructed with input_count = 1: one optical input slot, one
optical output slot. -/
def exMux1 : Component :=
  { kind := .mux
    connections_in := ⟨[some ⟨0, 0⟩], [], []⟩
    connections_out := ⟨[none], [], []⟩
    output := ⟨[.dict ⟨[]⟩], [], []⟩
    losses_factor := some [("insertion", 1)] }

def exHeapMux1 : Heap :=
  [(0, { exLaser with connections_out := ⟨[some ⟨1, 0⟩], [], []⟩ }),
   (1, exMux1)]

/-- C6: Mux.update iterates range(len(self.connections_in)), and
connections_in is the per-port-type dict, so the loop always runs over the
indices 0, 1, 2 regardless of the constructed input count.  A mux with one
connected optical input therefore raises IndexError at index 1 instead of
producing the superposition of its single input, contradicting the claim
for every N other than 3. -/
theorem mux_update_fails_on_one_input :
    componentUpdate exHeapMux1 1 exMux1 = .error .indexError := by
  decide

def exDemux : Component :=
  { kind := .demux [1550, 1551, 1552]
    connections_in := ⟨[some ⟨0, 0⟩], [], []⟩
    connections_out := ⟨[some ⟨2, 0⟩, some ⟨2, 1⟩, some ⟨2, 2⟩], [], []⟩
    output := ⟨[.dict ⟨[]⟩, .dict ⟨[]⟩, .dict ⟨[]⟩], [], []⟩
    losses_factor := some [("insertion", 1)] }

/-- exDemux after update: each optical output slot holds a NUMBER
(input[w] times the insertion factor), not a spectrum. -/
def exDemuxAfter : Component :=
  { exDemux with output := ⟨[.num 1, .num 0, .num 0], [], []⟩ }

def exMux3 : Component :=
  { kind := .mux
    connections_in := ⟨[some ⟨1, 0⟩, some ⟨1, 1⟩, some ⟨1, 2⟩], [], []⟩
    connections_out := ⟨[none], [], []⟩
    output := ⟨[.dict ⟨[]⟩], [], []⟩
    losses_factor := some [("insertion", 1)] }

def exHeapDemuxMux : Heap :=
  [(0, { exLaser with connections_out := ⟨[some ⟨1, 0⟩], [], []⟩ }),
   (1, exDemux), (2, exMux3)]

/-- C7: a Demux followed by a Mux over the same wavelengths cannot
reconstruct the input power: Demux.update stores the scalar
input[w] * insertion factor into each optical output slot (a float, not a
one-line spectrum), and Mux.update then evaluates OpticalPower() + float,
whose __add__ calls rhs.keys() and raises AttributeError.  Here the laser
emits {1550: 1}, both insertion factors are 1, the demux update succeeds
with outputs [1, 0, 0] and the mux update fails. -/
theorem demux_then_mux_crashes :
    componentUpdate exHeapDemuxMux 1 exDemux = .ok exDemuxAfter ∧
    componentUpdate (heapSet exHeapDemuxMux 1 exDemuxAfter) 2 exMux3
        = .error .attributeError := by
  constructor <;>
    norm_num [componentUpdate, exDemux, exDemuxAfter, exHeapDemuxMux, exLaser,
      exMux3, Component.get_input, Component.get_output, heapGet, heapSet,
      pyIdx, pySet, getLoss, demuxLoop, muxLoop, PyVal.getItem, PyVal.mulQ,
      PyVal.addVal, PyVal.valuesSum, OpticalPower.get, OpticalPower.mul,
      getEnt, PortMap.get, PortMap.set, OpticalPower.copy, Bind.bind,
      Except.bind, pure, Except.pure]

/-! ## C9: observer recording -/

theorem recordAll_spec (heap : Heap) (obs obs1 : List (String × Observer))
    (h : recordAll heap obs = .ok obs1) :
    obs1.length = obs.length ∧
    ∀ i (hi : i < obs.length) (hi1 : i < obs1.length),
      ∃ v, (obs1.get ⟨i, hi1⟩).2.data = (obs.get ⟨i, hi⟩).2.data ++ [v] := by
  induction obs generalizing obs1 with
  | nil =>
    simp only [recordAll, Except.ok.injEq] at h
    subst h
    exact ⟨rfl, fun i hi hi1 => absurd hi (by simp)⟩
  | cons p rest ih =>
    obtain ⟨n, ob⟩ := p
    cases hg : heapGet heap ob.target with
    | none =>
      simp only [recordAll, hg] at h
      exact absurd h (by simp)
    | some c =>
      cases hv : c.get_output ob.port_type ob.port_id with
      | error e =>
        simp only [recordAll, hg, hv] at h
        exact absurd h (by simp)
      | ok v =>
        cases hr : recordAll heap rest with
        | error e =>
          simp only [recordAll, hg, hv, hr] at h
          exact absurd h (by simp)
        | ok rest1 =>
          simp only [recordAll, hg, hv, hr, Except.ok.injEq] at h
          subst h
          obtain ⟨hlen, happ⟩ := ih rest1 hr
          refine ⟨by simp [hlen], fun i hi hi1 => ?_⟩
          cases i with
          | zero => exact ⟨v, rfl⟩
          | succ j =>
            exact happ j (by simpa using hi) (by simpa using hi1)

theorem resolve_preserves_observers (s t : PhotonicSimulation)
    (h : s.resolve_dependencies = .ok t) : t.observers = s.observers := by
  unfold PhotonicSimulation.resolve_dependencies at h
  cases hr : resolveRegistry s.heap s.components with
  | error e => rw [hr] at h; exact absurd h (by simp)
  | ok reg =>
    rw [hr] at h
    simp only [Except.ok.injEq] at h
    subst h
    rfl

theorem update_appends (s s1 : PhotonicSimulation)
    (h : s.update = .ok s1) :
    s1.observers.length = s.observers.length ∧
    ∀ i (hi : i < s.observers.length) (hi1 : i < s1.observers.length),
      ∃ v, (s1.observers.get ⟨i, hi1⟩).2.data
        = (s.observers.get ⟨i, hi⟩).2.data ++ [v] := by
  unfold PhotonicSimulation.update at h
  cases hif : (if s.dependencies_resolved = true then Except.ok s
      else s.resolve_dependencies : Except PyError PhotonicSimulation) with
  | error e => rw [hif] at h; exact absurd h (by simp)
  | ok s0 =>
    simp only [hif] at h
    have hobs : s0.observers = s.observers := by
      by_cases hd : s.dependencies_resolved = true
      · simp only [hd, if_true, Except.ok.injEq] at hif
        rw [hif]
      · simp only [hd, if_false] at hif
        exact resolve_preserves_observers s s0 hif
    cases hu : updateComponentsAux s0.heap s0.components with
    | error e =>
      simp only [hu] at h
      exact absurd h (by simp)
    | ok heap1 =>
      simp only [hu] at h
      cases hrec : recordAll heap1 s0.observers with
      | error e =>
        simp only [hrec] at h
        exact absurd h (by simp)
      | ok obs1 =>
        simp only [hrec] at h
        simp only [Except.ok.injEq] at h
        subst h
        rw [hobs] at hrec
        exact recordAll_spec heap1 s.observers obs1 hrec

/-- C9: after T successful calls to update(), every observer sequence has
grown by an appended tail of length exactly T, one sample per tick, and is
otherwise unchanged: starting from freshly created observers (empty data)
the recorded sequence therefore has length exactly T, in call order.  The
observer set itself is unchanged by update(). -/
theorem updateIter_appends (T : Nat) (s s1 : PhotonicSimulation)
    (h : updateIter T s = .ok s1) :
    s1.observers.length = s.observers.length ∧
    ∀ i (hi : i < s.observers.length) (hi1 : i < s1.observers.length),
      ∃ tail, tail.length = T ∧
        (s1.observers.get ⟨i, hi1⟩).2.data
          = (s.observers.get ⟨i, hi⟩).2.data ++ tail := by
  induction T generalizing s with
  | zero =>
    simp only [updateIter, Except.ok.injEq] at h
    subst h
    exact ⟨rfl, fun i hi hi1 => ⟨[], rfl, by simp⟩⟩
  | succ n ih =>
    unfold updateIter at h
    cases hu : s.update with
    | error e => rw [hu] at h; exact absurd h (by simp)
    | ok s0 =>
      rw [hu] at h
      obtain ⟨hlen0, happ0⟩ := update_appends s s0 hu
      obtain ⟨hlen1, happ1⟩ := ih s0 h
      refine ⟨hlen1.trans hlen0, fun i hi hi1 => ?_⟩
      have hi0 : i < s0.observers.length := by omega
      obtain ⟨v, hv⟩ := happ0 i hi hi0
      obtain ⟨tail, htl, htd⟩ := happ1 i hi0 hi1
      refine ⟨[v] ++ tail, by simp [htl], ?_⟩
      rw [htd, hv]
      simp

/-- The state reached from exSimObsConnected after two ticks: the
photodetector output is 1 and the observer has recorded it twice. -/
def exSimTicked : PhotonicSimulation :=
  { heap :=
      [(0, { exLaser with connections_out := ⟨[some ⟨1, 0⟩], [], []⟩ }),
       (1, { exPhotodetector with
               connections_in := ⟨[some ⟨0, 0⟩], [], []⟩
               output := ⟨[], [.num 1], []⟩ })]
    components := [("Laser 0", 0), ("Photodetector 0", 1)]
    observers := [("Observer 0", { exObserver with data := [.num 1, .num 1] })]
    dependencies_resolved := true }

theorem updateIter_appends_witness :
    updateIter 2 exSimObsConnected = .ok exSimTicked ∧
    (exSimTicked.observers.length = exSimObsConnected.observers.length ∧
     ∀ i (hi : i < exSimObsConnected.observers.length)
       (hi1 : i < exSimTicked.observers.length),
       ∃ tail, tail.length = 2 ∧
         (exSimTicked.observers.get ⟨i, hi1⟩).2.data
           = (exSimObsConnected.observers.get ⟨i, hi⟩).2.data ++ tail) := by
  have hrun : updateIter 2 exSimObsConnected = .ok exSimTicked := by
    norm_num [updateIter, PhotonicSimulation.update, updateComponentsAux,
      recordAll, componentUpdate, exSimObsConnected, exSimTicked, exLaser,
      exPhotodetector, exObserver, Component.get_input, Component.get_output,
      heapGet, heapSet, pyIdx, pySet, getLoss, PyVal.valuesSum,
      OpticalPower.valuesSum, PortMap.get, PortMap.set, Bind.bind,
      Except.bind, pure, Except.pure]
  exact ⟨hrun, updateIter_appends 2 exSimObsConnected exSimTicked hrun⟩

/-! ## C10: the resolver dereferences unset input slots -/

/-- Every declared input slot of the component holds a connection
endpoint. -/
def noneFree (c : Component) : Prop :=
  ∀ oc ∈ inputConnections c, oc ≠ none

instance (c : Component) : Decidable (noneFree c) := by
  unfold noneFree
  infer_instance

theorem depScan_ok_noneFree (L : List (String × Nat))
    (conns : List (Option ConnectionEndpoint)) (acc b : Bool)
    (h : depScan L conns acc = .ok b) : ∀ oc ∈ conns, oc ≠ none := by
  induction conns generalizing acc with
  | nil =>
    intro oc hoc
    simp at hoc
  | cons oc rest ih =>
    intro x hx
    cases oc with
    | none => simp [depScan] at h
    | some ep =>
      simp only [depScan] at h
      rcases List.mem_cons.mp hx with hx | hx
      · subst hx
        simp
      · exact ih _ h x hx

theorem drop_cons_of_get? (reg : List (String × Nat)) (i : Nat)
    (p : String × Nat) (hp : reg.get? i = some p) :
    reg.drop i = p :: reg.drop (i + 1) := by
  obtain ⟨hi, hget⟩ := List.get?_eq_some.mp hp
  rw [List.drop_eq_getElem_cons hi]
  simp [← hget]

theorem drop_eraseIdx_append (reg : List (String × Nat)) (i : Nat)
    (p : String × Nat) (hi : i < reg.length) :
    (reg.eraseIdx i ++ [p]).drop i = reg.drop (i + 1) ++ [p] := by
  rw [List.eraseIdx_eq_take_drop_succ, List.append_assoc]
  have ht : (reg.take i).length = i := by
    rw [List.length_take]
    omega
  rw [List.drop_left' ht]

theorem resolveAux_ok_noneFree (heap : Heap) (reg : List (String × Nat))
    (i iterated : Nat) (res : List (String × Nat))
    (h : resolveAux heap reg i iterated = .ok res) :
    ∀ p ∈ reg.drop i, ∃ c, heapGet heap p.2 = some c ∧ noneFree c := by
  induction reg, i, iterated using resolveAux.induct heap generalizing res with
  | case1 reg iterated =>
    intro p hp
    rw [List.drop_length] at hp
    simp at hp
  | case2 reg i iterated h1 h2 =>
    unfold resolveAux at h
    rw [dif_neg h1, dif_pos h2] at h
    exact absurd h (by simp)
  | case3 reg i iterated h1 h2 h3 =>
    unfold resolveAux at h
    rw [dif_neg h1, dif_neg h2] at h
    simp only [h3] at h
    exact absurd h (by simp)
  | case4 reg i iterated h1 h2 p hp hg =>
    unfold resolveAux at h
    rw [dif_neg h1, dif_neg h2] at h
    simp only [hp, hg] at h
    exact absurd h (by simp)
  | case5 reg i iterated h1 h2 p hp src hg e hdep =>
    unfold resolveAux at h
    rw [dif_neg h1, dif_neg h2] at h
    simp only [hp, hg, hdep] at h
    exact absurd h (by simp)
  | case6 reg i iterated h1 h2 p hp src hg hdep ih =>
    unfold resolveAux at h
    rw [dif_neg h1, dif_neg h2] at h
    simp only [hp, hg, hdep] at h
    have hi : i < reg.length := (List.get?_eq_some.mp hp).1
    intro q hq
    apply ih res h
    rw [drop_eraseIdx_append reg i p hi]
    rw [drop_cons_of_get? reg i p hp] at hq
    rcases List.mem_cons.mp hq with hq | hq
    · subst hq
      simp
    · exact List.mem_append_left _ hq
  | case7 reg i iterated h1 h2 p hp src hg hdep ih =>
    unfold resolveAux at h
    rw [dif_neg h1, dif_neg h2] at h
    simp only [hp, hg, hdep] at h
    intro q hq
    rw [drop_cons_of_get? reg i p hp] at hq
    rcases List.mem_cons.mp hq with hq | hq
    · subst hq
      exact ⟨src, hg, depScan_ok_noneFree _ _ _ _ hdep⟩
    · exact ih res h q hq

/-- C10: dependency resolution never succeeds when any registered component
has an unset (None) input slot of any port type: the resolver loop walks
every input slot of every registered component and dereferences
connection.component unconditionally, so the unset slot raises
AttributeError instead of the component being treated as dependency-free;
since update() resolves first when the order is stale, the first update()
after a topology change fails the same way. -/
theorem resolver_requires_connected_inputs (heap : Heap)
    (reg : List (String × Nat)) (p : String × Nat) (c : Component)
    (hp : p ∈ reg) (hc : heapGet heap p.2 = some c)
    (hnone : ¬ noneFree c) :
    ∀ res, resolveRegistry heap reg ≠ .ok res := by
  intro res h
  obtain ⟨c2, hc2, hfree⟩ :=
    resolveAux_ok_noneFree heap reg 0 0 res h p (by simpa using hp)
  rw [hc] at hc2
  simp only [Option.some.injEq] at hc2
  subst hc2
  exact hnone hfree

def exRegPd : List (String × Nat) := [("Photodetector 0", 0)]

def exHeapPd : Heap := [(0, exPhotodetector)]

theorem resolver_requires_connected_inputs_witness :
    (("Photodetector 0", 0) ∈ exRegPd ∧
     heapGet exHeapPd 0 = some exPhotodetector ∧ ¬ noneFree exPhotodetector) ∧
    (∀ res, resolveRegistry exHeapPd exRegPd ≠ .ok res) ∧
    resolveRegistry exHeapPd exRegPd = .error .attributeError := by
  refine ⟨⟨by decide, by decide, by decide⟩, ?_, ?_⟩
  · exact resolver_requires_connected_inputs exHeapPd exRegPd
      ("Photodetector 0", 0) exPhotodetector (by decide) (by decide) (by decide)
  · simp [resolveRegistry, resolveAux, exHeapPd, exRegPd, exPhotodetector,
      heapGet, hasDependencies, inputConnections, depScan]

/-! ## C1: the dependency graph and the scan characterisation -/

/-- b feeds a: some input connection slot of the component stored at heap id
a holds an endpoint referencing heap id b (the graph edge of the spec,
"A depends on B iff some input port of A is connected to some output port
of B", read off the input tables the resolver actually consults). -/
def feeds (heap : Heap) (b a : Nat) : Bool :=
  match heapGet heap a with
  | none => false
  | some c =>
    (inputConnections c).any (fun oc =>
      match oc with
      | some ep => decide (ep.component = b)
      | none => false)

/-- The dependency edge between two registered components. -/
def EdgeIn (heap : Heap) (reg : List (String × Nat)) (b a : Nat) : Prop :=
  b ∈ reg.map (fun p => p.2) ∧ a ∈ reg.map (fun p => p.2) ∧
    feeds heap b a = true

/-- The connection graph over the registered components has no cycle. -/
def Acyclic (heap : Heap) (reg : List (String × Nat)) : Prop :=
  ∀ a, ¬ Relation.TransGen (EdgeIn heap reg) a a

/-- Every entry of the list appears strictly after every registered entry
that feeds it: no entry is fed by an entry at the same or a later
position. -/
def SortedReg (heap : Heap) (res : List (String × Nat)) : Prop :=
  ∀ j k (hj : j < res.length) (hk : k < res.length), j ≤ k →
    feeds heap (res.get ⟨k, hk⟩).2 (res.get ⟨j, hj⟩).2 = false

/-- The accepted prefix of the loop is already in dependency order: no
entry at or after a prefix position feeds the entry at that position. -/
def PrefixSorted (heap : Heap) (reg : List (String × Nat)) (i : Nat) : Prop :=
  ∀ j (hj : j < reg.length), j < i →
    ∀ q ∈ reg.drop j, feeds heap q.2 (reg.get ⟨j, hj⟩).2 = false

/-- Every member of S is fed by some member of S. -/
def AllFed (heap : Heap) (S : List (String × Nat)) : Prop :=
  ∀ q ∈ S, ∃ b ∈ S.map (fun r => r.2), feeds heap b q.2 = true

/-- The boolean value accumulated by the dependency scan of a fully
connected component over the unresolved list L. -/
def depAnyB (c : Component) (L : List (String × Nat)) : Bool :=
  (inputConnections c).any (fun oc =>
    match oc with
    | some ep => L.any (fun q => decide (q.2 = ep.component))
    | none => false)

theorem depScan_eq (L : List (String × Nat))
    (conns : List (Option ConnectionEndpoint)) (acc : Bool)
    (hn : ∀ oc ∈ conns, oc ≠ none) :
    depScan L conns acc = .ok (acc || conns.any (fun oc =>
      match oc with
      | some ep => L.any (fun q => decide (q.2 = ep.component))
      | none => false)) := by
  induction conns generalizing acc with
  | nil => simp [depScan]
  | cons oc rest ih =>
    cases oc with
    | none => exact absurd rfl (hn none (List.mem_cons_self _ _))
    | some ep =>
      simp only [depScan]
      rw [ih _ (fun x hx => hn x (List.mem_cons_of_mem _ hx))]
      simp [List.any_cons, Bool.or_assoc]

theorem hasDependencies_eq (c : Component) (L : List (String × Nat))
    (hn : noneFree c) :
    hasDependencies c L = .ok (depAnyB c L) := by
  unfold hasDependencies depAnyB
  rw [depScan_eq L _ false hn]
  simp

theorem depAnyB_iff_feeds (heap : Heap) (a : Nat) (c : Component)
    (L : List (String × Nat)) (hc : heapGet heap a = some c) :
    depAnyB c L = true ↔
      ∃ b ∈ L.map (fun q => q.2), feeds heap b a = true := by
  constructor
  · intro h
    obtain ⟨oc, hoc, hb⟩ := List.any_eq_true.mp h
    cases oc with
    | none => simp at hb
    | some ep =>
      obtain ⟨q, hq, hqe⟩ := List.any_eq_true.mp hb
      have hqc : q.2 = ep.component := of_decide_eq_true hqe
      refine ⟨q.2, List.mem_map_of_mem _ hq, ?_⟩
      unfold feeds
      rw [hc]
      exact List.any_eq_true.mpr
        ⟨some ep, hoc, decide_eq_true hqc.symm⟩
  · rintro ⟨b, hbL, hf⟩
    unfold feeds at hf
    rw [hc] at hf
    obtain ⟨oc, hoc, hb⟩ := List.any_eq_true.mp hf
    cases oc with
    | none => simp at hb
    | some ep =>
      have hep : ep.component = b := of_decide_eq_true hb
      obtain ⟨q, hq, hq2⟩ := List.mem_map.mp hbL
      exact List.any_eq_true.mpr
        ⟨some ep, hoc,
         List.any_eq_true.mpr ⟨q, hq, decide_eq_true (by rw [hq2, hep])⟩⟩

theorem feeds_false_of_not_depAnyB (heap : Heap) (a : Nat) (c : Component)
    (L : List (String × Nat)) (hc : heapGet heap a = some c)
    (hdep : depAnyB c L = false) :
    ∀ q ∈ L, feeds heap q.2 a = false := by
  intro q hq
  by_contra hf
  rw [Bool.not_eq_false] at hf
  have h1 : depAnyB c L = true :=
    (depAnyB_iff_feeds heap a c L hc).mpr
      ⟨q.2, List.mem_map_of_mem _ hq, hf⟩
  rw [hdep] at h1
  exact absurd h1 (by simp)

/-- The position of the first entry with component id x. -/
def posIn : List (String × Nat) → Nat → Nat
  | [], _ => 0
  | q :: rest, x => if q.2 = x then 0 else posIn rest x + 1

theorem posIn_spec (res : List (String × Nat)) (x : Nat)
    (hx : x ∈ res.map (fun p => p.2)) :
    ∃ h : posIn res x < res.length, (res.get ⟨posIn res x, h⟩).2 = x := by
  induction res with
  | nil => simp at hx
  | cons q rest ih =>
    by_cases hq : q.2 = x
    · exact ⟨by simp [posIn, hq], by simp [posIn, hq]⟩
    · have hx' : x ∈ rest.map (fun p => p.2) := by
        rcases List.mem_map.mp hx with ⟨r, hr, hr2⟩
        rcases List.mem_cons.mp hr with hr | hr
        · exact absurd (hr ▸ hr2) hq
        · exact hr2 ▸ List.mem_map_of_mem _ hr
      obtain ⟨hlt, hget⟩ := ih hx'
      refine ⟨by simp only [posIn, if_neg hq, List.length_cons]; omega, ?_⟩
      simp only [posIn, if_neg hq, List.get_cons_succ]
      exact hget

theorem get_mem_drop (reg : List (String × Nat)) (j k : Nat)
    (hk : k < reg.length) (hjk : j ≤ k) :
    reg.get ⟨k, hk⟩ ∈ reg.drop j := by
  have hlt : k - j < (reg.drop j).length := by
    rw [List.length_drop]
    omega
  have heq : (reg.drop j).get ⟨k - j, hlt⟩ = reg.get ⟨k, hk⟩ := by
    simp only [List.get_eq_getElem, List.getElem_drop]
    congr 1
    omega
  rw [← heq]
  exact List.get_mem _ _ _

theorem resolveAux_perm (heap : Heap) (reg : List (String × Nat))
    (i iterated : Nat) (res : List (String × Nat))
    (h : resolveAux heap reg i iterated = .ok res) : reg.Perm res := by
  induction reg, i, iterated using resolveAux.induct heap generalizing res with
  | case1 reg iterated =>
    unfold resolveAux at h
    rw [dif_pos rfl] at h
    simp only [Except.ok.injEq] at h
    exact h ▸ List.Perm.refl reg
  | case2 reg i iterated h1 h2 =>
    unfold resolveAux at h
    rw [dif_neg h1, dif_pos h2] at h
    exact absurd h (by simp)
  | case3 reg i iterated h1 h2 h3 =>
    unfold resolveAux at h
    rw [dif_neg h1, dif_neg h2] at h
    simp only [h3] at h
    exact absurd h (by simp)
  | case4 reg i iterated h1 h2 p hp hg =>
    unfold resolveAux at h
    rw [dif_neg h1, dif_neg h2] at h
    simp only [hp, hg] at h
    exact absurd h (by simp)
  | case5 reg i iterated h1 h2 p hp src hg e hdep =>
    unfold resolveAux at h
    rw [dif_neg h1, dif_neg h2] at h
    simp only [hp, hg, hdep] at h
    exact absurd h (by simp)
  | case6 reg i iterated h1 h2 p hp src hg hdep ih =>
    unfold resolveAux at h
    rw [dif_neg h1, dif_neg h2] at h
    simp only [hp, hg, hdep] at h
    have hsplit : reg = reg.take i ++ p :: reg.drop (i + 1) := by
      conv_lhs => rw [← List.take_append_drop i reg]
      rw [drop_cons_of_get? reg i p hp]
    have hflat : reg.eraseIdx i ++ [p]
        = reg.take i ++ (reg.drop (i + 1) ++ [p]) := by
      rw [List.eraseIdx_eq_take_drop_succ, List.append_assoc]
    have hstep : (reg.take i ++ p :: reg.drop (i + 1)).Perm
        (reg.take i ++ (reg.drop (i + 1) ++ [p])) :=
      List.Perm.append_left _ (List.perm_append_singleton _ _).symm
    rw [← hsplit, ← hflat] at hstep
    exact hstep.trans (ih res h)
  | case7 reg i iterated h1 h2 p hp src hg hdep ih =>
    unfold resolveAux at h
    rw [dif_neg h1, dif_neg h2] at h
    simp only [hp, hg, hdep] at h
    exact ih res h

theorem resolveAux_sorted (heap : Heap) (reg : List (String × Nat))
    (i iterated : Nat) (res : List (String × Nat))
    (h : resolveAux heap reg i iterated = .ok res)
    (hpre : PrefixSorted heap reg i) : SortedReg heap res := by
  induction reg, i, iterated using resolveAux.induct heap generalizing res with
  | case1 reg iterated =>
    unfold resolveAux at h
    rw [dif_pos rfl] at h
    simp only [Except.ok.injEq] at h
    subst h
    intro j k hj hk hjk
    exact hpre j hj hj (reg.get ⟨k, hk⟩) (get_mem_drop reg j k hk hjk)
  | case2 reg i iterated h1 h2 =>
    unfold resolveAux at h
    rw [dif_neg h1, dif_pos h2] at h
    exact absurd h (by simp)
  | case3 reg i iterated h1 h2 h3 =>
    unfold resolveAux at h
    rw [dif_neg h1, dif_neg h2] at h
    simp only [h3] at h
    exact absurd h (by simp)
  | case4 reg i iterated h1 h2 p hp hg =>
    unfold resolveAux at h
    rw [dif_neg h1, dif_neg h2] at h
    simp only [hp, hg] at h
    exact absurd h (by simp)
  | case5 reg i iterated h1 h2 p hp src hg e hdep =>
    unfold resolveAux at h
    rw [dif_neg h1, dif_neg h2] at h
    simp only [hp, hg, hdep] at h
    exact absurd h (by simp)
  | case6 reg i iterated h1 h2 p hp src hg hdep ih =>
    unfold resolveAux at h
    rw [dif_neg h1, dif_neg h2] at h
    simp only [hp, hg, hdep] at h
    have hi : i < reg.length := (List.get?_eq_some.mp hp).1
    have hsplit : reg = reg.take i ++ p :: reg.drop (i + 1) := by
      conv_lhs => rw [← List.take_append_drop i reg]
      rw [drop_cons_of_get? reg i p hp]
    have hflat : reg.eraseIdx i ++ [p]
        = reg.take i ++ (reg.drop (i + 1) ++ [p]) := by
      rw [List.eraseIdx_eq_take_drop_succ, List.append_assoc]
    have htk : (reg.take i).length = i := by
      rw [List.length_take]
      omega
    apply ih res h
    intro j hj hji q hq
    have hjt : j < (reg.take i).length := by omega
    have hjreg : j < reg.length := by omega
    have hje : (reg.eraseIdx i).length = reg.length - 1 := by
      rw [List.length_eraseIdx]
      simp [hi]
    have hq1 : (reg.eraseIdx i ++ [p]).get? j = reg.get? j := by
      rw [List.get?_append (by omega)]
      rw [List.eraseIdx_eq_take_drop_succ, List.get?_append (by omega)]
      exact List.get?_take hji
    rw [List.get?_eq_get hj, List.get?_eq_get hjreg] at hq1
    have hget : ((reg.eraseIdx i ++ [p]).get ⟨j, hj⟩).2
        = (reg.get ⟨j, hjreg⟩).2 := by
      rw [Option.some_inj.mp hq1]
    have hqreg : q ∈ reg.drop j := by
      rw [hflat, List.drop_append_eq_append_drop] at hq
      have hj0 : j - (reg.take i).length = 0 := by omega
      rw [hj0, List.drop_zero] at hq
      have hjd : (reg.drop j) = (reg.take i).drop j ++ (p :: reg.drop (i + 1)) := by
        conv_lhs => rw [hsplit]
        rw [List.drop_append_eq_append_drop, hj0, List.drop_zero]
      rw [hjd]
      rcases List.mem_append.mp hq with hq | hq
      · exact List.mem_append_left _ hq
      · rcases List.mem_append.mp hq with hq | hq
        · exact List.mem_append_right _ (List.mem_cons_of_mem _ hq)
        · rcases List.mem_singleton.mp hq with rfl
          exact List.mem_append_right _ (List.mem_cons_self _ _)
    have := hpre j hjreg (by omega) q hqreg
    rw [hget]
    exact this
  | case7 reg i iterated h1 h2 p hp src hg hdep ih =>
    unfold resolveAux at h
    rw [dif_neg h1, dif_neg h2] at h
    simp only [hp, hg, hdep] at h
    have hi : i < reg.length := (List.get?_eq_some.mp hp).1
    apply ih res h
    intro j hj hji q hq
    by_cases hjlt : j < i
    · exact hpre j hj hjlt q hq
    · have hje : j = i := by omega
      subst hje
      have hnf : noneFree src := depScan_ok_noneFree _ _ _ _ hdep
      have hdep' : depAnyB src (reg.drop j) = false := by
        rw [hasDependencies_eq src _ hnf] at hdep
        simpa using hdep
      have hpj : (reg.get ⟨j, hj⟩) = p := by
        rw [List.get?_eq_get hj] at hp
        exact Option.some_inj.mp hp
      rw [hpj]
      exact feeds_false_of_not_depAnyB heap p.2 src (reg.drop j) hg hdep' q hq

/-- When the resolver loop fails, the failure is the dependency-cycle
RuntimeError and, at that moment, every still-unresolved component has a
feeder among the still-unresolved components (provided every registered
component is on the heap with all inputs connected).  The hypothesis HR is
the rotation invariant: the iterated last entries of the unresolved suffix
were all moved there because they had an unresolved dependency. -/
theorem resolveAux_error_spec (heap : Heap) (reg : List (String × Nat))
    (i iterated : Nat) (e : PyError)
    (h : resolveAux heap reg i iterated = .error e)
    (HW : ∀ p ∈ reg, ∃ c, heapGet heap p.2 = some c ∧ noneFree c)
    (Hi : i ≤ reg.length)
    (HR : ∀ j (hj : j < (reg.drop i).length),
        (reg.drop i).length - iterated ≤ j →
        ∃ b ∈ (reg.drop i).map (fun r => r.2),
          feeds heap b ((reg.drop i).get ⟨j, hj⟩).2 = true) :
    e = .dependencyCycle ∧
    ∃ S : List (String × Nat), S ≠ [] ∧ (∀ q ∈ S, q ∈ reg) ∧
      AllFed heap S := by
  induction reg, i, iterated using resolveAux.induct heap with
  | case1 reg iterated =>
    unfold resolveAux at h
    rw [dif_pos rfl] at h
    exact absurd h (by simp)
  | case2 reg i iterated h1 h2 =>
    unfold resolveAux at h
    rw [dif_neg h1, dif_pos h2] at h
    simp only [Except.error.injEq] at h
    have hi : i < reg.length := by
      rcases Nat.lt_or_ge i reg.length with hlt | hge
      · exact hlt
      · exact absurd (Nat.le_antisymm Hi hge) h1
    refine ⟨h.symm, reg.drop i, ?_, fun q hq => List.drop_subset i reg hq, ?_⟩
    · have : 0 < (reg.drop i).length := by
        rw [List.length_drop]
        omega
      exact List.length_pos.mp this
    · intro q hq
      obtain ⟨n, hn⟩ := List.mem_iff_get.mp hq
      have hcond : (reg.drop i).length - iterated ≤ n.1 := by
        have hld : (reg.drop i).length = reg.length - i := List.length_drop i reg
        omega
      obtain ⟨b, hb, hf⟩ := HR n.1 n.2 hcond
      refine ⟨b, hb, ?_⟩
      rw [← hn]
      simpa using hf
  | case3 reg i iterated h1 h2 h3 =>
    have := List.get?_eq_none.mp h3
    omega
  | case4 reg i iterated h1 h2 p hp hg =>
    obtain ⟨c, hc, _⟩ := HW p (List.get?_mem hp)
    rw [hg] at hc
    exact absurd hc (by simp)
  | case5 reg i iterated h1 h2 p hp src hg e0 hdep =>
    obtain ⟨c, hc, hnf⟩ := HW p (List.get?_mem hp)
    rw [hg] at hc
    simp only [Option.some.injEq] at hc
    subst hc
    rw [hasDependencies_eq src _ hnf] at hdep
    exact absurd hdep (by simp)
  | case6 reg i iterated h1 h2 p hp src hg hdep ih =>
    unfold resolveAux at h
    rw [dif_neg h1, dif_neg h2] at h
    simp only [hp, hg, hdep] at h
    have hi : i < reg.length := (List.get?_eq_some.mp hp).1
    have hje : (reg.eraseIdx i).length = reg.length - 1 := by
      rw [List.length_eraseIdx]
      simp [hi]
    have hlrot : (reg.eraseIdx i ++ [p]).length = reg.length := by
      rw [List.length_append, hje]
      simp
      omega
    have hsub : ∀ q ∈ reg.eraseIdx i ++ [p], q ∈ reg := by
      intro q hq
      rcases List.mem_append.mp hq with hq | hq
      · rw [List.eraseIdx_eq_take_drop_succ] at hq
        rcases List.mem_append.mp hq with hq | hq
        · exact List.take_subset _ _ hq
        · exact List.drop_subset _ _ hq
      · rcases List.mem_singleton.mp hq with rfl
        exact List.get?_mem hp
    have hd : reg.drop i = p :: reg.drop (i + 1) := drop_cons_of_get? reg i p hp
    have hd' : (reg.eraseIdx i ++ [p]).drop i = reg.drop (i + 1) ++ [p] :=
      drop_eraseIdx_append reg i p hi
    have hX : (reg.drop (i + 1)).length = reg.length - i - 1 :=
      List.length_drop (i + 1) reg
    have hmapiff : ∀ b, b ∈ (reg.drop (i + 1) ++ [p]).map (fun r => r.2) ↔
        b ∈ (reg.drop i).map (fun r => r.2) := by
      intro b
      rw [hd]
      simp [or_comm]
    have hnf : noneFree src := depScan_ok_noneFree _ _ _ _ hdep
    have hdepB : depAnyB src (reg.drop i) = true := by
      rw [hasDependencies_eq src _ hnf] at hdep
      simpa using hdep
    obtain ⟨hcycle, S, hS, hSsub, hfed⟩ := ih h
      (fun q hq => HW q (hsub q hq))
      (by omega)
      (by
        intro j hj hge
        have hj' : j < (reg.drop (i + 1) ++ [p]).length := by
          rw [← hd']
          exact hj
        have hgeteq0 : ((reg.eraseIdx i ++ [p]).drop i).get ⟨j, hj⟩
            = (reg.drop (i + 1) ++ [p]).get ⟨j, hj'⟩ := by
          have hq0 := congrArg (fun l => l.get? j) hd'
          simp only at hq0
          rw [List.get?_eq_get hj, List.get?_eq_get hj'] at hq0
          exact Option.some_inj.mp hq0
        have hge' : (reg.drop (i + 1) ++ [p]).length - (iterated + 1) ≤ j := by
          rw [← hd']
          exact hge
        rw [hgeteq0, hd']
        have hlen' : (reg.drop (i + 1) ++ [p]).length = reg.length - i := by
          rw [List.length_append, hX]
          simp
          omega
        by_cases hlast : j = (reg.drop (i + 1)).length
        · subst hlast
          have hget : ((reg.drop (i + 1) ++ [p]).get
              ⟨(reg.drop (i + 1)).length, hj'⟩) = p := by
            have hcl := List.get?_concat_length (reg.drop (i + 1)) p
            rw [List.get?_eq_get hj'] at hcl
            exact Option.some_inj.mp hcl
          rw [hget]
          obtain ⟨b, hb, hf⟩ :=
            (depAnyB_iff_feeds heap p.2 src (reg.drop i) hg).mp hdepB
          exact ⟨b, (hmapiff b).mpr hb, hf⟩
        · have hjX : j < (reg.drop (i + 1)).length := by
            rw [hlen'] at hj'
            rw [hX]
            omega
          have hj1 : j + 1 < (reg.drop i).length := by
            rw [List.length_drop]
            rw [hX] at hjX
            omega
          have hgeteq : ((reg.drop (i + 1) ++ [p]).get ⟨j, hj'⟩)
              = ((reg.drop i).get ⟨j + 1, hj1⟩) := by
            have e1 : (reg.drop (i + 1) ++ [p]).get? j
                = (reg.drop (i + 1)).get? j := List.get?_append hjX
            have e2 : (reg.drop i).get? (j + 1)
                = (reg.drop (i + 1)).get? j := by
              rw [hd]
              rfl
            rw [List.get?_eq_get hj'] at e1
            rw [List.get?_eq_get hj1] at e2
            rw [← e2] at e1
            exact Option.some_inj.mp e1
          rw [hgeteq]
          have hcond : (reg.drop i).length - iterated ≤ j + 1 := by
            rw [List.length_drop]
            rw [hlen'] at hge'
            omega
          obtain ⟨b, hb, hf⟩ := HR (j + 1) hj1 hcond
          exact ⟨b, (hmapiff b).mpr hb, hf⟩)
    exact ⟨hcycle, S, hS, fun q hq => hsub q (hSsub q hq), hfed⟩
  | case7 reg i iterated h1 h2 p hp src hg hdep ih =>
    unfold resolveAux at h
    rw [dif_neg h1, dif_neg h2] at h
    simp only [hp, hg, hdep] at h
    have hi : i < reg.length := (List.get?_eq_some.mp hp).1
    obtain ⟨hcycle, S, hS, hSsub, hfed⟩ := ih h HW (by omega)
      (by
        intro j hj hge
        rw [List.length_drop] at hj hge
        omega)
    exact ⟨hcycle, S, hS, hSsub, hfed⟩

/-- A finite nonempty set of registered components in which everyone is fed
by a member contains a dependency cycle (follow predecessors and apply the
pigeonhole principle). -/
theorem cycle_of_allFed (heap : Heap) (reg S : List (String × Nat))
    (hS : S ≠ []) (hsub : ∀ q ∈ S, q ∈ reg) (hfed : AllFed heap S) :
    ∃ a, Relation.TransGen (EdgeIn heap reg) a a := by
  classical
  have hidsub : ∀ x ∈ S.map (fun r => r.2), x ∈ reg.map (fun r => r.2) := by
    intro x hx
    obtain ⟨q, hq, hq2⟩ := List.mem_map.mp hx
    exact hq2 ▸ List.mem_map_of_mem _ (hsub q hq)
  have hpred : ∀ x : {x // x ∈ S.map (fun r => r.2)},
      ∃ y : {y // y ∈ S.map (fun r => r.2)}, feeds heap y.1 x.1 = true := by
    rintro ⟨x, hx⟩
    obtain ⟨q, hq, hq2⟩ := List.mem_map.mp hx
    obtain ⟨b, hb, hf⟩ := hfed q hq
    exact ⟨⟨b, hb⟩, by rw [hq2] at hf; exact hf⟩
  choose pred hpredf using hpred
  have hx0 : ∃ x, x ∈ S.map (fun r => r.2) := by
    cases S with
    | nil => exact absurd rfl hS
    | cons q rest => exact ⟨q.2, by simp⟩
  obtain ⟨x0, hx0⟩ := hx0
  let f : Nat → {x // x ∈ S.map (fun r => r.2)} := fun n => pred^[n] ⟨x0, hx0⟩
  have hstep : ∀ n, feeds heap (f (n + 1)).1 (f n).1 = true := by
    intro n
    have hit : f (n + 1) = pred (f n) := Function.iterate_succ_apply' pred n _
    rw [hit]
    exact hpredf (f n)
  have hedge : ∀ n, EdgeIn heap reg (f (n + 1)).1 (f n).1 := fun n =>
    ⟨hidsub _ (f (n + 1)).2, hidsub _ (f n).2, hstep n⟩
  have hchain : ∀ m n, n < m →
      Relation.TransGen (EdgeIn heap reg) (f m).1 (f n).1 := by
    intro m
    induction m with
    | zero => omega
    | succ k ihk =>
      intro n hn
      rcases Nat.lt_or_ge n k with hnk | hnk
      · exact Relation.TransGen.head (hedge k) (ihk n hnk)
      · have hnk' : n = k := by omega
        subst hnk'
        exact Relation.TransGen.single (hedge n)
  have hmaps : ∀ n ∈ Finset.range ((S.map (fun r => r.2)).toFinset.card + 1),
      (f n).1 ∈ (S.map (fun r => r.2)).toFinset := fun n _ =>
    List.mem_toFinset.mpr (f n).2
  obtain ⟨a, ha, b, hb, hab, hfab⟩ :=
    Finset.exists_ne_map_eq_of_card_lt_of_maps_to
      (by rw [Finset.card_range]; omega) hmaps
  rcases Nat.lt_or_ge a b with hlt | hge
  · refine ⟨(f b).1, ?_⟩
    have hc := hchain b a hlt
    rwa [hfab] at hc
  · have hlt : b < a := by omega
    refine ⟨(f a).1, ?_⟩
    have hc := hchain a b hlt
    rwa [← hfab] at hc

theorem transGen_posIn_lt (heap : Heap) (reg res : List (String × Nat))
    (hperm : reg.Perm res) (hsorted : SortedReg heap res) :
    ∀ x y, Relation.TransGen (EdgeIn heap reg) x y →
      posIn res x < posIn res y := by
  have hmemmap : ∀ z, z ∈ reg.map (fun r => r.2) →
      z ∈ res.map (fun r => r.2) := by
    intro z hz
    exact (hperm.map (fun r => r.2)).mem_iff.mp hz
  have hedge : ∀ x y, EdgeIn heap reg x y → posIn res x < posIn res y := by
    rintro x y ⟨hxm, hym, hf⟩
    obtain ⟨hxl, hxe⟩ := posIn_spec res x (hmemmap x hxm)
    obtain ⟨hyl, hye⟩ := posIn_spec res y (hmemmap y hym)
    by_contra hle
    push_neg at hle
    have hs := hsorted (posIn res y) (posIn res x) hyl hxl hle
    rw [hxe, hye, hf] at hs
    exact absurd hs (by simp)
  intro x y hxy
  induction hxy with
  | single h => exact hedge _ _ h
  | tail h1 h2 ihp => exact ihp.trans (hedge _ _ h2)

/-- C1: dependency resolution over a registry whose components are all on
the heap with every input slot connected (see C10 for why an unset slot
makes the resolver fail before anything else can happen).  When the
connection graph over the registered components is acyclic, resolution
succeeds with a permutation of the registry in which no entry is fed by an
entry at the same or a later position, i.e. every component appears
strictly after every registered component that feeds one of its inputs;
when the graph contains a cycle, resolution raises the dependency-cycle
RuntimeError.  The embedded resolver is a pure function of the heap and
the registry, so the outcome is deterministic: the same input graph always
yields the same order or the same error. -/
theorem resolve_dependencies_spec (heap : Heap) (reg : List (String × Nat))
    (HW : ∀ p ∈ reg, ∃ c, heapGet heap p.2 = some c ∧ noneFree c) :
    (Acyclic heap reg →
      ∃ res, resolveRegistry heap reg = .ok res ∧ reg.Perm res ∧
        SortedReg heap res) ∧
    ((∃ a, Relation.TransGen (EdgeIn heap reg) a a) →
      resolveRegistry heap reg = .error .dependencyCycle) := by
  have hHR0 : ∀ j (hj : j < (reg.drop 0).length),
      (reg.drop 0).length - 0 ≤ j →
      ∃ b ∈ (reg.drop 0).map (fun r => r.2),
        feeds heap b ((reg.drop 0).get ⟨j, hj⟩).2 = true := by
    intro j hj hge
    exact absurd hge (by omega)
  have hpre0 : PrefixSorted heap reg 0 :=
    fun j hj hji q hq => absurd hji (by omega)
  constructor
  · intro hacy
    cases hres : resolveRegistry heap reg with
    | ok res =>
      exact ⟨res, rfl, resolveAux_perm heap reg 0 0 res hres,
        resolveAux_sorted heap reg 0 0 res hres hpre0⟩
    | error e =>
      obtain ⟨he, S, hS, hsub, hfed⟩ :=
        resolveAux_error_spec heap reg 0 0 e hres HW (by omega) hHR0
      obtain ⟨a, hcyc⟩ := cycle_of_allFed heap reg S hS hsub hfed
      exact absurd hcyc (hacy a)
  · rintro ⟨a, hcyc⟩
    cases hres : resolveRegistry heap reg with
    | ok res =>
      have hperm := resolveAux_perm heap reg 0 0 res hres
      have hsorted := resolveAux_sorted heap reg 0 0 res hres hpre0
      have hlt := transGen_posIn_lt heap reg res hperm hsorted a a hcyc
      omega
    | error e =>
      obtain ⟨he, _⟩ :=
        resolveAux_error_spec heap reg 0 0 e hres HW (by omega) hHR0
      rw [← he]

theorem acyclic_of_rank (heap : Heap) (reg : List (String × Nat))
    (rank : Nat → Nat)
    (hr : ∀ b a, EdgeIn heap reg b a → rank b < rank a) :
    Acyclic heap reg := by
  intro a hcyc
  have hmono : ∀ x y, Relation.TransGen (EdgeIn heap reg) x y →
      rank x < rank y := by
    intro x y hxy
    induction hxy with
    | single h => exact hr _ _ h
    | tail h1 h2 ihp => exact ihp.trans (hr _ _ h2)
  exact absurd (hmono a a hcyc) (by omega)

def exHeapAcyclic : Heap :=
  [(0, { exLaser with connections_out := ⟨[some ⟨1, 0⟩], [], []⟩ }),
   (1, { exPhotodetector with connections_in := ⟨[some ⟨0, 0⟩], [], []⟩ })]

def exRegAcyclic : List (String × Nat) :=
  [("Laser 0", 0), ("Photodetector 0", 1)]

/-- Two waveguides feeding each other: a dependency cycle. -/
def exWgA : Component :=
  { kind := .waveguide 1
    connections_in := ⟨[some ⟨1, 0⟩], [], []⟩
    connections_out := ⟨[some ⟨1, 0⟩], [], []⟩
    output := ⟨[.dict ⟨[]⟩], [], []⟩
    losses_factor := some [("propagation", 1)] }

def exWgB : Component :=
  { kind := .waveguide 1
    connections_in := ⟨[some ⟨0, 0⟩], [], []⟩
    connections_out := ⟨[some ⟨0, 0⟩], [], []⟩
    output := ⟨[.dict ⟨[]⟩], [], []⟩
    losses_factor := some [("propagation", 1)] }

def exHeapCyclic : Heap := [(0, exWgA), (1, exWgB)]

def exRegCyclic : List (String × Nat) :=
  [("Waveguide 0", 0), ("Waveguide 1", 1)]

theorem resolve_dependencies_spec_witness :
    (∀ p ∈ exRegAcyclic,
       ∃ c, heapGet exHeapAcyclic p.2 = some c ∧ noneFree c) ∧
    Acyclic exHeapAcyclic exRegAcyclic ∧
    (∃ res, resolveRegistry exHeapAcyclic exRegAcyclic = .ok res ∧
       exRegAcyclic.Perm res ∧ SortedReg exHeapAcyclic res) ∧
    (∃ a, Relation.TransGen (EdgeIn exHeapCyclic exRegCyclic) a a) ∧
    resolveRegistry exHeapCyclic exRegCyclic = .error .dependencyCycle := by
  have HW1 : ∀ p ∈ exRegAcyclic,
      ∃ c, heapGet exHeapAcyclic p.2 = some c ∧ noneFree c := by
    intro p hp
    simp only [exRegAcyclic, List.mem_cons, List.mem_singleton] at hp
    rcases hp with rfl | hp
    · exact ⟨_, rfl, by decide⟩
    · rcases hp with rfl | hp
      · exact ⟨_, rfl, by decide⟩
      · simp at hp
  have HW2 : ∀ p ∈ exRegCyclic,
      ∃ c, heapGet exHeapCyclic p.2 = some c ∧ noneFree c := by
    intro p hp
    simp only [exRegCyclic, List.mem_cons, List.mem_singleton] at hp
    rcases hp with rfl | hp
    · exact ⟨_, rfl, by decide⟩
    · rcases hp with rfl | hp
      · exact ⟨_, rfl, by decide⟩
      · simp at hp
  have hacy : Acyclic exHeapAcyclic exRegAcyclic := by
    apply acyclic_of_rank exHeapAcyclic exRegAcyclic (fun n => n)
    rintro b a ⟨hb, ha, hf⟩
    simp only [exRegAcyclic, List.map_cons, List.map_nil, List.mem_cons,
      List.mem_singleton, List.not_mem_nil, or_false] at hb ha
    rcases hb with rfl | rfl <;> rcases ha with rfl | rfl
    · exact absurd hf (by decide)
    · decide
    · exact absurd hf (by decide)
    · exact absurd hf (by decide)
  have he01 : EdgeIn exHeapCyclic exRegCyclic 0 1 :=
    ⟨by decide, by decide, by decide⟩
  have he10 : EdgeIn exHeapCyclic exRegCyclic 1 0 :=
    ⟨by decide, by decide, by decide⟩
  have hcyc : ∃ a, Relation.TransGen (EdgeIn exHeapCyclic exRegCyclic) a a :=
    ⟨0, Relation.TransGen.tail (Relation.TransGen.single he01) he10⟩
  exact ⟨HW1, hacy, (resolve_dependencies_spec exHeapAcyclic exRegAcyclic HW1).1 hacy,
    hcyc, (resolve_dependencies_spec exHeapCyclic exRegCyclic HW2).2 hcyc⟩

end Phosim
